import Mathlib

/-!
Verification of the GCM sender library (package `gcm`).

The definitions below are a shallow embedding of `sender.go`, `errors.go`,
`response.go` and the message/result files of the repository.  The HTTP
round-trip performed by `sendRaw` is modelled by an oracle
`transport : Nat → Transport` giving, for each attempt/round index, either
the parsed 200-response body, a non-200 status code (Go's `httpError`), or
any other failure (network, marshal, read, unmarshal).  The pseudo random
generator `rand.Intn` is modelled by an oracle `rand : Nat → Nat`, the draw
of round `k` being `rand k % bound` (every value in `[0, bound)` is
realisable, and nothing else).  The calls to `time.Sleep` are recorded in a
trace of `(backoff, sleepTime)` pairs so that the timing behaviour is
observable.
-/

namespace GCM

/-- Error code constants from `errors.go`. -/
def ErrorMissingRegistration : String := "MissingRegistration"

def ErrorInvalidRegistration : String := "InvalidRegistration"

def ErrorNotRegistered : String := "NotRegistered"

def ErrorInvalidPackageName : String := "InvalidPackageName"

def ErrorMismatchSenderID : String := "MismatchSenderId"

def ErrorMessageTooBig : String := "MessageTooBig"

def ErrorInvalidDataKey : String := "InvalidDataKey"

def ErrorInvalidTTL : String := "InvalidTtl"

def ErrorUnavailable : String := "Unavailable"

def ErrorInternalServerError : String := "InternalServerError"

def ErrorDeviceMessageRateExceeded : String := "DeviceMessageRateExceeded"

def ErrorTopicsMessageRateExceeded : String := "TopicsMessageRateExceeded"

/-- `BackoffInitialDelay` from `sender.go`: initial retry interval (ms). -/
def BackoffInitialDelay : Nat := 1000

/-- `MaxBackoffDelay` from `sender.go`: max backoff period (ms). -/
def MaxBackoffDelay : Nat := 1024000

/-- Modelled from the spec: the constant `TopicPrefix` is referenced by
`SendNoRetry` (sender.go line 155) and by the tests, but its defining file is
not among the provided sources.  Per the spec (§ GLOSSARY, "topic name") and
the GCM HTTP protocol it is the topic-name prefix `"/topics/"`. -/
def TopicPrefix : String := "/topics/"

/-- The only field of `Message` consulted by the sender code
(`msg.TimeToLive` in `checkUnrecoverableErrors`).  The Go `*Message` may be
nil, which is modelled with `Option Message` at use sites. -/
structure Message where
  timeToLive : Int := 0
deriving DecidableEq, Repr

/-- Per-recipient entry of a response body (`response.go`, type `result`). -/
structure result where
  messageID : String := ""
  registrationID : String := ""
  err : String := ""
deriving DecidableEq, Repr

/-- Parsed 200-response body (`response.go`, type `response`).  `results` is
`Option` because Go distinguishes a nil slice (absent `results` key, topic or
device-group shape) from a present one. -/
structure response where
  multicastID : Int := 0
  success : Int := 0
  failure : Int := 0
  canonicalIds : Int := 0
  results : Option (List result) := none
  messageID : Int := 0
  err : String := ""
  failedRegistrationIDs : List String := []
deriving DecidableEq, Repr

/-- Public per-recipient result (`Result` in the repository). -/
structure Result where
  messageID : String := ""
  canonicalRegistrationID : String := ""
  error : String := ""
  success : Int := 0
  failure : Int := 0
  failedRegistrationIDs : List String := []
deriving DecidableEq, Repr

/-- Public aggregated multicast result (`MulticastResult` in the repository). -/
structure MulticastResult where
  success : Int := 0
  failure : Int := 0
  canonicalIds : Int := 0
  multicastID : Int := 0
  results : List Result := []
  retryMulticastIDs : List Int := []
deriving DecidableEq, Repr

/-- Outcome of one `sendRaw` HTTP round-trip. -/
inductive Transport where
  /-- status 200 with a parseable body -/
  | ok (resp : response)
  /-- non-200 status: `sendRaw` returns `httpError{statusCode, status}` -/
  | http (statusCode : Nat)
  /-- any other failure (network error, marshal, body read, unmarshal) -/
  | net
deriving DecidableEq, Repr

/-- The Go `error` values the sender functions can return. -/
inductive Gerr where
  /-- `httpError` carrying the status code -/
  | http (statusCode : Nat)
  /-- an error built from a message string (validation, bad response shape) -/
  | msg (s : String)
  /-- any other error (network, marshal, read, unmarshal) -/
  | net
deriving DecidableEq, Repr

/-- `checkUnrecoverableErrors` (sender.go lines 50-74).  The `s.Client == nil`
branch only installs a default HTTP client and has no observable effect here. -/
def checkUnrecoverableErrors (apiKey : String) (to' : String)
    (regIDs : Option (List String)) (msg : Option Message) (retries : Int) :
    Option String :=
  if apiKey = "" then some "missing API key"
  else match msg with
  | none => some "message cannot be nil"
  | some m =>
    if m.timeToLive < 0 ∨ m.timeToLive > 2419200 then
      some "TimeToLive should be non-negative and at most 4 weeks"
    else if to' = "" ∧ (regIDs = none ∨ (regIDs.getD []).length ≤ 0) then
      some "missing recipient(s)"
    else if retries < 0 then some "retries cannot be negative"
    else none

/-- Transport-level retry classification used by both retry engines:
`httpErr.statusCode >= http.StatusInternalServerError && httpErr.statusCode < 600`
(sender.go line 189) and
`httpErr.statusCode >= 500 && httpErr.statusCode < 600` (line 254). -/
def retryableStatus (statusCode : Nat) : Bool :=
  500 ≤ statusCode && statusCode < 600

/-- Application-level retry classification used by both retry engines:
`Error == ErrorUnavailable || Error == ErrorInternalServerError`
(sender.go lines 185 and 280). -/
def retryableAppError (e : String) : Bool :=
  e == ErrorUnavailable || e == ErrorInternalServerError

/-- `SendNoRetry` (sender.go lines 135-170), with the raw round-trip of
`sendRaw` supplied as `t`.  Returns `(result, err)`: exactly one of the two
components is `some`. -/
def SendNoRetry (apiKey : String) (msg : Option Message) (to' : String)
    (t : Transport) : Option Result × Option Gerr :=
  match checkUnrecoverableErrors apiKey to' none msg 0 with
  | some e => (none, some (Gerr.msg e))
  | none =>
    match t with
    | Transport.http c => (none, some (Gerr.http c))
    | Transport.net => (none, some Gerr.net)
    | Transport.ok resp =>
      match resp.results with
      | some rs => -- downstream message
        match rs with
        | [res] =>
          (some { messageID := res.messageID,
                  canonicalRegistrationID := res.registrationID,
                  error := res.err }, none)
        | _ => (none, some (Gerr.msg "invalid response.results"))
      | none =>
        if String.startsWith to' TopicPrefix then -- topic message
          if resp.messageID ≠ 0 then
            (some { messageID := toString resp.messageID }, none)
          else if resp.err ≠ "" then
            (some { error := resp.err }, none)
          else (none, some (Gerr.msg "expected message_id or error"))
        else -- device group message
          (some { success := resp.success, failure := resp.failure,
                  failedRegistrationIDs := resp.failedRegistrationIDs }, none)

/-- The `tryAgain` transport-error test of `SendWithRetries`
(sender.go lines 187-191): a retry only for an `httpError` in the 5xx range. -/
def tryAgainHTTP : Option Gerr → Bool
  | some (Gerr.http c) => retryableStatus c
  | _ => false

/-- The retry loop of `SendWithRetries` (sender.go lines 177-201).
`attempt` is the 1-based attempt counter of the Go loop; `fuel` is a
structural-recursion bound maintained at `retries + 2 - attempt`, so it never
reaches `0` before `attempt ≤ retries` turns false; at `fuel = 0` the
function returns the current attempt's outcome exactly as the `tryAgain =
false` branch does.  `sleeps` accumulates `(backoff, sleepTime)` for each
`time.Sleep` call. -/
def sendWithRetriesLoop (apiKey : String) (msg : Option Message) (to' : String)
    (transport : Nat → Transport) (rand : Nat → Nat) (retries : Nat) :
    Nat → Nat → Nat → List (Nat × Nat) →
    Option Result × Option Gerr × List (Nat × Nat)
  | fuel, attempt, backoff, sleeps =>
    let out := SendNoRetry apiKey msg to' (transport attempt)
    let tryAgain : Bool :=
      if attempt ≤ retries then
        match out.1 with
        | some r =>
          if retryableAppError r.error then true else tryAgainHTTP out.2
        | none => tryAgainHTTP out.2
      else false
    match fuel with
    | 0 => (out.1, out.2, sleeps)
    | fuel + 1 =>
      if tryAgain then
        let sleepTime := backoff / 2 + rand attempt % backoff
        sendWithRetriesLoop apiKey msg to' transport rand retries fuel
          (attempt + 1) (min (2 * backoff) MaxBackoffDelay)
          (sleeps ++ [(backoff, sleepTime)])
      else (out.1, out.2, sleeps)

/-- `SendWithRetries` (sender.go lines 173-203).  The third component is the
trace of `(backoff, sleepTime)` pairs of the sleeps performed. -/
def SendWithRetries (apiKey : String) (msg : Option Message) (to' : String)
    (transport : Nat → Transport) (rand : Nat → Nat) (retries : Int) :
    Option Result × Option Gerr × List (Nat × Nat) :=
  match checkUnrecoverableErrors apiKey to' none msg retries with
  | some e => (none, some (Gerr.msg e), [])
  | none =>
    sendWithRetriesLoop apiKey msg to' transport rand retries.toNat
      (retries.toNat + 1) 1 BackoffInitialDelay []

/-- The recipient→outcome map of `SendMulticastWithRetries`
(`results := make(map[string]result)`), as an association list where an
insert prepends and a lookup takes the first hit, so an insert overwrites. -/
abbrev RMap := List (String × result)

/-- Map lookup: first binding wins (the most recently inserted one). -/
def mapLookup (m : RMap) (k : String) : Option result :=
  match m with
  | [] => none
  | (k', v) :: rest => if k' = k then some v else mapLookup rest k

/-- Map insert/overwrite (`results[regID] = result`). -/
def mapInsert (m : RMap) (k : String) (v : result) : RMap :=
  (k, v) :: m

/-- Go's zero value of type `result`: what `results[regID]` yields for an
absent key during reconstruction. -/
def zeroResult : result :=
  { messageID := "", registrationID := "", err := "" }

/-- The per-recipient `Result` built in the reconstruction loop
(sender.go lines 307-311). -/
def toFinalResult (r : result) : Result :=
  { messageID := r.messageID, canonicalRegistrationID := r.registrationID,
    error := r.err }

/-- The per-round recording loop (sender.go lines 277-283):
`regID, result := rawMsg.registrationIds[i], resp.Results[i]` for each index
`i` of `resp.Results`; stores outcomes into the map and collects the
application-retryable recipients in order.  Returns `none` exactly when Go
would panic with index-out-of-range (`resp.Results` longer than the subset). -/
def recordResults : List String → List result → RMap →
    Option (RMap × List String)
  | _, [], m => some (m, [])
  | [], _ :: _, _ => none
  | id :: ids, r :: rs, m =>
    match recordResults ids rs (mapInsert m id r) with
    | none => none
    | some (m', retry) =>
      some (m', if retryableAppError r.err then id :: retry else retry)

/-- The `finalResult` value as of the end of the retry loop: only
`MulticastID` and `RetryMulticastIDs` have been touched; counters and
`Results` are still zero. -/
def baseResult (mid : Int) (rids : List Int) : MulticastResult :=
  { multicastID := mid, retryMulticastIDs := rids }

/-- The counter updates of the reconstruction loop (sender.go lines
312-319): a `result` with a message id counts as a success (plus a
canonical id when a registration id is present), anything else as a
failure. -/
def countStep (m : RMap) (acc : MulticastResult) (regID : String) :
    MulticastResult :=
  let r := (mapLookup m regID).getD zeroResult
  if r.messageID ≠ "" then
    if r.registrationID ≠ "" then
      { acc with success := acc.success + 1,
                 canonicalIds := acc.canonicalIds + 1 }
    else { acc with success := acc.success + 1 }
  else { acc with failure := acc.failure + 1 }

/-- The result-reconstruction epilogue of `SendMulticastWithRetries`
(sender.go lines 303-322): for each original recipient in order, look the
recipient up in the map (absent keys give the zero `result`), emit the
corresponding `Result`, and bump `Success`/`CanonicalIds`/`Failure`. -/
def reconcile (origIDs : List String) (m : RMap) (base : MulticastResult) :
    MulticastResult :=
  let counted := origIDs.foldl (countStep m) base
  { counted with
      results := origIDs.map
        (fun regID => toFinalResult ((mapLookup m regID).getD zeroResult)) }

/-- Overall outcome of `SendMulticastWithRetries`: the Go function either
returns `(nil, err)`, returns `(result, nil)`, or panics (index out of
range on a malformed response). -/
inductive MOut where
  | err (e : Gerr)
  | ok (r : MulticastResult)
  | crash
deriving DecidableEq, Repr

/-- One round of the retry loop of `SendMulticastWithRetries` up to the
break/continue decision (sender.go lines 252-289). -/
inductive RoundStep where
  /-- first-round unrecoverable transport failure: `return nil, err` -/
  | abort (e : Gerr)
  /-- later-round unrecoverable transport failure: `break` with state as is -/
  | halt
  /-- Go index-out-of-range panic -/
  | crash
  /-- round processed: new map, retry subset, multicast id, retry-id list -/
  | next (m' : RMap) (retryRegIds : List String) (mid' : Int)
      (rids' : List Int)

/-- Executes sender.go lines 252-289 for one round: classify a transport
failure (5xx → proceed with no response; otherwise abort on the first round
and halt on later ones), and for a response record the multicast id and the
per-recipient outcomes; with no response every recipient of the current
subset is retried. -/
def roundStep (t : Transport) (curIDs : List String) (m : RMap) (mid : Int)
    (rids : List Int) (firstResponse : Bool) : RoundStep :=
  match t with
  | Transport.http c =>
    if retryableStatus c then
      -- recoverable error: resp == nil, retry the whole current subset
      RoundStep.next m curIDs mid rids
    else if firstResponse then RoundStep.abort (Gerr.http c)
    else RoundStep.halt
  | Transport.net =>
    if firstResponse then RoundStep.abort Gerr.net
    else RoundStep.halt
  | Transport.ok resp =>
    let ids : Int × List Int :=
      if resp.multicastID ≠ 0 then
        if firstResponse then (resp.multicastID, rids)
        else (mid, rids ++ [resp.multicastID])
      else (mid, rids)
    match recordResults curIDs (resp.results.getD []) m with
    | none => RoundStep.crash
    | some (m', retry) => RoundStep.next m' retry ids.1 ids.2

/-- The retry loop of `SendMulticastWithRetries` (sender.go lines 251-301),
followed by the reconstruction epilogue.  `retries` is the remaining retry
budget (validated non-negative, hence a `Nat`; the Go test `retries <= 0` is
the `0` case); `round` indexes the transport oracle; `sleeps` accumulates
`(backoff, sleepTime)` for each `time.Sleep` call. -/
def multicastLoop (transport : Nat → Transport) (rand : Nat → Nat)
    (origIDs : List String) :
    Nat → List String → RMap → Int → List Int → Bool → Nat → Nat →
    List (Nat × Nat) → MOut × List (Nat × Nat)
  | round, curIDs, m, mid, rids, firstResponse, retries, backoff, sleeps =>
    match roundStep (transport round) curIDs m mid rids firstResponse with
    | RoundStep.abort e => (MOut.err e, sleeps)
    | RoundStep.crash => (MOut.crash, sleeps)
    | RoundStep.halt =>
      (MOut.ok (reconcile origIDs m (baseResult mid rids)), sleeps)
    | RoundStep.next m' retry mid' rids' =>
      match retries with
      | 0 => (MOut.ok (reconcile origIDs m' (baseResult mid' rids')), sleeps)
      | r + 1 =>
        if retry = [] then
          (MOut.ok (reconcile origIDs m' (baseResult mid' rids')), sleeps)
        else
          let sleepTime := backoff / 2 + rand round % backoff
          multicastLoop transport rand origIDs (round + 1) retry m' mid'
            rids' false r (min (2 * backoff) MaxBackoffDelay)
            (sleeps ++ [(backoff, sleepTime)])

/-- `SendMulticastWithRetries` (sender.go lines 242-323).  The second
component is the trace of `(backoff, sleepTime)` pairs of the sleeps
performed. -/
def SendMulticastWithRetries (apiKey : String) (msg : Option Message)
    (regIDs : List String) (retries : Int) (transport : Nat → Transport)
    (rand : Nat → Nat) : MOut × List (Nat × Nat) :=
  match checkUnrecoverableErrors apiKey "" (some regIDs) msg retries with
  | some e => (MOut.err (Gerr.msg e), [])
  | none =>
    multicastLoop transport rand regIDs 0 regIDs [] 0 [] true retries.toNat
      BackoffInitialDelay []

/-- The recipients counted as failures by the reconstruction loop: those
whose latest recorded outcome (or the zero `result` if none was recorded)
carries no message id. -/
def failedID (m : RMap) (id : String) : Bool :=
  ((mapLookup m id).getD zeroResult).messageID == ""

/-- The emitted outcome list of `reconcile` replays the original recipient
list position for position through the outcome map. -/
theorem reconcile_results (origIDs : List String) (m : RMap)
    (base : MulticastResult) :
    (reconcile origIDs m base).results =
      origIDs.map
        (fun regID => toFinalResult ((mapLookup m regID).getD zeroResult)) :=
  rfl

theorem reconcile_get (origIDs : List String) (m : RMap)
    (base : MulticastResult) (i : Nat) (hi : i < origIDs.length) :
    (reconcile origIDs m base).results[i]? =
      some (toFinalResult ((mapLookup m origIDs[i]).getD zeroResult)) := by
  simp [reconcile_results, List.getElem?_eq_getElem hi]

theorem foldl_countStep (m : RMap) :
    ∀ (ids : List String) (base : MulticastResult),
      (ids.foldl (countStep m) base).success
          + (ids.foldl (countStep m) base).failure
          = base.success + base.failure + ids.length ∧
      (ids.foldl (countStep m) base).failure
          = base.failure + ((ids.filter (failedID m)).length : Int) ∧
      (ids.foldl (countStep m) base).multicastID = base.multicastID ∧
      (ids.foldl (countStep m) base).retryMulticastIDs
          = base.retryMulticastIDs := by
  intro ids
  induction ids with
  | nil => intro base; simp
  | cons id ids ih =>
    intro base
    have hA : (countStep m base id).success + (countStep m base id).failure
        = base.success + base.failure + 1 := by
      unfold countStep
      by_cases hmsg : ((mapLookup m id).getD zeroResult).messageID = "" <;>
        by_cases hreg :
          ((mapLookup m id).getD zeroResult).registrationID = "" <;>
        simp [hmsg, hreg] <;> ring
    have hB : (countStep m base id).failure
        = base.failure + (if failedID m id then 1 else 0) := by
      unfold countStep failedID
      by_cases hmsg : ((mapLookup m id).getD zeroResult).messageID = "" <;>
        by_cases hreg :
          ((mapLookup m id).getD zeroResult).registrationID = "" <;>
        simp [hmsg, hreg]
    have hC : (countStep m base id).multicastID = base.multicastID := by
      unfold countStep
      by_cases hmsg : ((mapLookup m id).getD zeroResult).messageID = "" <;>
        by_cases hreg :
          ((mapLookup m id).getD zeroResult).registrationID = "" <;>
        simp [hmsg, hreg]
    have hD : (countStep m base id).retryMulticastIDs
        = base.retryMulticastIDs := by
      unfold countStep
      by_cases hmsg : ((mapLookup m id).getD zeroResult).messageID = "" <;>
        by_cases hreg :
          ((mapLookup m id).getD zeroResult).registrationID = "" <;>
        simp [hmsg, hreg]
    rcases ih (countStep m base id) with ⟨h1, h2, h3, h4⟩
    refine ⟨?_, ?_, ?_, ?_⟩
    · rw [List.foldl_cons, h1, hA]
      simp only [List.length_cons]
      push_cast
      ring
    · rw [List.foldl_cons, h2, hB, List.filter_cons]
      by_cases hf : failedID m id
      · simp [hf]
        ring
      · simp [hf]
    · rw [List.foldl_cons, h3, hC]
    · rw [List.foldl_cons, h4, hD]

/-- Counter facts about the reconstruction: `Success + Failure` equals the
number of original recipients, and `Failure` counts exactly the positions
whose recipient has no recorded delivery. -/
theorem reconcile_counts (origIDs : List String) (m : RMap) (mid : Int)
    (rids : List Int) :
    (reconcile origIDs m (baseResult mid rids)).success
        + (reconcile origIDs m (baseResult mid rids)).failure
        = origIDs.length ∧
    (reconcile origIDs m (baseResult mid rids)).failure
        = ((origIDs.filter (failedID m)).length : Int) := by
  have h := foldl_countStep m origIDs (baseResult mid rids)
  have hs : (reconcile origIDs m (baseResult mid rids)).success
      = (origIDs.foldl (countStep m) (baseResult mid rids)).success := rfl
  have hf : (reconcile origIDs m (baseResult mid rids)).failure
      = (origIDs.foldl (countStep m) (baseResult mid rids)).failure := rfl
  rcases h with ⟨h1, h2, -, -⟩
  constructor
  · rw [hs, hf, h1]; simp [baseResult]
  · rw [hf, h2]; simp [baseResult]

/-- Whenever the retry loop returns through the `(result, nil)` path, the
returned value is the reconstruction of some recipient→outcome map over the
original recipient list. -/
theorem multicastLoop_ok_shape (transport : Nat → Transport)
    (rand : Nat → Nat) (origIDs : List String) :
    ∀ (retries round : Nat) (curIDs : List String) (m : RMap) (mid : Int)
      (rids : List Int) (fr : Bool) (backoff : Nat)
      (sleeps tr : List (Nat × Nat)) (res : MulticastResult),
      multicastLoop transport rand origIDs round curIDs m mid rids fr
          retries backoff sleeps = (MOut.ok res, tr) →
      ∃ (mm : RMap) (mid' : Int) (rids' : List Int),
        res = reconcile origIDs mm (baseResult mid' rids') := by
  intro retries
  induction retries with
  | zero =>
    intro round curIDs m mid rids fr backoff sleeps tr res h
    unfold multicastLoop at h
    rcases hstep : roundStep (transport round) curIDs m mid rids fr with
      e | - | - | ⟨m', retry, mid', rids'⟩ <;> rw [hstep] at h <;> simp at h
    · exact ⟨m, mid, rids, h.1.symm⟩
    · exact ⟨m', mid', rids', h.1.symm⟩
  | succ r ih =>
    intro round curIDs m mid rids fr backoff sleeps tr res h
    unfold multicastLoop at h
    rcases hstep : roundStep (transport round) curIDs m mid rids fr with
      e | - | - | ⟨m', retry, mid', rids'⟩ <;> rw [hstep] at h <;> simp at h
    · exact ⟨m, mid, rids, h.1.symm⟩
    · by_cases hr : retry = []
      · rw [if_pos hr] at h
        simp at h
        exact ⟨m', mid', rids', h.1.symm⟩
      · rw [if_neg hr] at h
        exact ih (round + 1) retry m' mid' rids' false
          (min (2 * backoff) MaxBackoffDelay)
          (sleeps ++ [(backoff, backoff / 2 + rand round % backoff)]) tr res h

/-- `SendMulticastWithRetries` only returns a `MulticastResult` that is the
reconstruction of some recipient→outcome map over the original list. -/
theorem sendMulticast_ok_shape (apiKey : String) (msg : Option Message)
    (regIDs : List String) (retries : Int) (transport : Nat → Transport)
    (rand : Nat → Nat) (res : MulticastResult) (tr : List (Nat × Nat))
    (h : SendMulticastWithRetries apiKey msg regIDs retries transport rand
        = (MOut.ok res, tr)) :
    ∃ (mm : RMap) (mid : Int) (rids : List Int),
      res = reconcile regIDs mm (baseResult mid rids) := by
  unfold SendMulticastWithRetries at h
  rcases hval : checkUnrecoverableErrors apiKey "" (some regIDs) msg retries
    with _ | e
  · rw [hval] at h
    exact multicastLoop_ok_shape transport rand regIDs retries.toNat 0 regIDs
      [] 0 [] true BackoffInitialDelay [] tr res h
  · rw [hval] at h
    simp at h

/-- C1: for every original recipient list `R` and every sequence of
per-round transport responses, whenever `SendMulticastWithRetries` returns a
non-nil `MulticastResult`, its outcome list has length `len(R)`, its order
matches `R` position for position (position `i` carries the recorded outcome
of recipient `R[i]`), `Success + Failure = len(R)`, and a recipient with no
recorded outcome is emitted as the empty outcome and counted as a failure. -/
theorem multicast_result_invariants (apiKey : String) (msg : Option Message)
    (regIDs : List String) (retries : Int) (transport : Nat → Transport)
    (rand : Nat → Nat) (res : MulticastResult) (tr : List (Nat × Nat))
    (h : SendMulticastWithRetries apiKey msg regIDs retries transport rand
        = (MOut.ok res, tr)) :
    res.results.length = regIDs.length ∧
    res.success + res.failure = regIDs.length ∧
    ∃ mm : RMap,
      (∀ i, ∀ hi : i < regIDs.length,
        res.results[i]? =
          some (toFinalResult ((mapLookup mm regIDs[i]).getD zeroResult))) ∧
      (∀ i, ∀ hi : i < regIDs.length, mapLookup mm regIDs[i] = none →
        res.results[i]? = some (toFinalResult zeroResult)) ∧
      res.failure = ((regIDs.filter (failedID mm)).length : Int) := by
  obtain ⟨mm, mid, rids, hres⟩ :=
    sendMulticast_ok_shape apiKey msg regIDs retries transport rand res tr h
  subst hres
  obtain ⟨hsum, hfail⟩ := reconcile_counts regIDs mm mid rids
  refine ⟨?_, hsum, mm, ?_, ?_, hfail⟩
  · rw [reconcile_results]
    simp
  · intro i hi
    exact reconcile_get regIDs mm (baseResult mid rids) i hi
  · intro i hi hnone
    rw [reconcile_get regIDs mm (baseResult mid rids) i hi, hnone]
    rfl

/-- Facts recoverable from a passed validation: the retry budget is
non-negative and the recipient condition is satisfied. -/
theorem check_none_facts (apiKey : String) (to' : String)
    (regIDs : Option (List String)) (msg : Option Message) (retries : Int)
    (h : checkUnrecoverableErrors apiKey to' regIDs msg retries = none) :
    0 ≤ retries ∧
    ¬(to' = "" ∧ (regIDs = none ∨ (regIDs.getD []).length ≤ 0)) := by
  unfold checkUnrecoverableErrors at h
  split at h
  · simp at h
  · rcases msg with - | m
    · simp at h
    · simp only at h
      split at h
      · simp at h
      · split at h
        · simp at h
        · split at h
          · simp at h
          · next hretry => exact ⟨by omega, by assumption⟩

/-- A passed multicast validation means the recipient list is non-empty. -/
theorem check_none_regIDs_ne_nil (apiKey : String) (regIDs : List String)
    (msg : Option Message) (retries : Int)
    (h : checkUnrecoverableErrors apiKey "" (some regIDs) msg retries
        = none) : regIDs ≠ [] := by
  obtain ⟨-, hrec⟩ := check_none_facts apiKey "" (some regIDs) msg retries h
  intro hcon
  subst hcon
  simp at hrec

/-- C2: if the first round's transport call fails with a terminal (non-5xx)
status, `SendMulticastWithRetries` returns that error and no result,
regardless of the retry budget. -/
theorem multicast_first_round_terminal_aborts (apiKey : String)
    (msg : Option Message) (regIDs : List String) (retries : Int)
    (transport : Nat → Transport) (rand : Nat → Nat) (c : Nat)
    (hval : checkUnrecoverableErrors apiKey "" (some regIDs) msg retries
        = none)
    (ht : transport 0 = Transport.http c)
    (hc : retryableStatus c = false) :
    SendMulticastWithRetries apiKey msg regIDs retries transport rand
      = (MOut.err (Gerr.http c), []) := by
  unfold SendMulticastWithRetries
  rw [hval]
  unfold multicastLoop
  rw [ht]
  simp [roundStep, hc]

/-- C3: in any state of the retry loop past the first transport response
(`firstResponse = false`, which holds in particular after a successful
round), a terminal transport failure yields the nil-error path: the round's
transport error is swallowed and the caller gets the reconstruction of only
the previously accumulated outcomes, recipients never resolved being emitted
as empty outcomes (and hence counted as failures). -/
theorem multicast_later_terminal_swallowed (transport : Nat → Transport)
    (rand : Nat → Nat) (origIDs : List String) (round : Nat)
    (curIDs : List String) (m : RMap) (mid : Int) (rids : List Int)
    (retries backoff : Nat) (sleeps : List (Nat × Nat))
    (hterm : transport round = Transport.net ∨
      ∃ c, transport round = Transport.http c ∧ retryableStatus c = false) :
    multicastLoop transport rand origIDs round curIDs m mid rids false
        retries backoff sleeps
      = (MOut.ok (reconcile origIDs m (baseResult mid rids)), sleeps) ∧
    ∀ i, ∀ hi : i < origIDs.length, mapLookup m origIDs[i] = none →
      (reconcile origIDs m (baseResult mid rids)).results[i]?
        = some (toFinalResult zeroResult) := by
  constructor
  · rcases hterm with ht | ⟨c, ht, hc⟩
    · unfold multicastLoop
      rw [ht]
      simp [roundStep]
    · unfold multicastLoop
      rw [ht]
      simp [roundStep, hc]
  · intro i hi hnone
    rw [reconcile_get origIDs m (baseResult mid rids) i hi, hnone]
    rfl

/-- C5: a 5xx transport failure of a round with retry budget remaining does
not abort the operation: no outcome is recorded for the round (the map, the
multicast id and the retry-id list are unchanged) and the next round is run
on the entire current subset, with the budget decremented and the backoff
advanced. -/
theorem multicast_5xx_round_retries_whole_subset (transport : Nat → Transport)
    (rand : Nat → Nat) (origIDs : List String) (round : Nat)
    (curIDs : List String) (m : RMap) (mid : Int) (rids : List Int)
    (fr : Bool) (r backoff : Nat) (sleeps : List (Nat × Nat)) (c : Nat)
    (ht : transport round = Transport.http c)
    (hc : retryableStatus c = true)
    (hne : curIDs ≠ []) :
    multicastLoop transport rand origIDs round curIDs m mid rids fr (r + 1)
        backoff sleeps
      = multicastLoop transport rand origIDs (round + 1) curIDs m mid rids
          false r (min (2 * backoff) MaxBackoffDelay)
          (sleeps ++ [(backoff, backoff / 2 + rand round % backoff)]) := by
  conv_lhs => unfold multicastLoop
  rw [ht]
  simp [roundStep, hc, hne]

/-- Every recipient is a reconstruction failure under the empty map. -/
theorem failedID_nil (id : String) : failedID [] id = true := rfl

/-- C4: both retry engines classify a transport status as retryable exactly
when it lies in 500..599, and an application error code as retryable exactly
when it is `Unavailable` or `InternalServerError`. -/
theorem retry_classification :
    (∀ s : Nat, retryableStatus s = true ↔ 500 ≤ s ∧ s ≤ 599) ∧
    (∀ e : String, retryableAppError e = true ↔
      e = ErrorUnavailable ∨ e = ErrorInternalServerError) := by
  constructor
  · intro s
    unfold retryableStatus
    constructor
    · intro h
      simp at h
      omega
    · intro h
      simp
      omega
  · intro e
    unfold retryableAppError
    constructor
    · intro h
      simp at h
      exact h
    · intro h
      simp
      exact h

/-- C10: with budget at least 1, a retryable 5xx failure on the first round
followed by a terminal status on the second still takes the error-swallowing
path: `SendMulticastWithRetries` returns nil error and a result marking
every recipient failed, although no round ever produced an outcome. -/
theorem multicast_5xx_then_terminal_all_failed (apiKey : String)
    (msg : Option Message) (regIDs : List String) (retries : Int)
    (transport : Nat → Transport) (rand : Nat → Nat) (c0 c1 : Nat)
    (hval : checkUnrecoverableErrors apiKey "" (some regIDs) msg retries
        = none)
    (hret : 1 ≤ retries)
    (ht0 : transport 0 = Transport.http c0) (hc0 : retryableStatus c0 = true)
    (ht1 : transport 1 = Transport.http c1)
    (hc1 : retryableStatus c1 = false) :
    ∃ res : MulticastResult, ∃ tr : List (Nat × Nat),
      SendMulticastWithRetries apiKey msg regIDs retries transport rand
          = (MOut.ok res, tr) ∧
      res.success = 0 ∧ res.failure = (regIDs.length : Int) ∧
      res.results.length = regIDs.length := by
  have hne : regIDs ≠ [] :=
    check_none_regIDs_ne_nil apiKey regIDs msg retries hval
  have hfacts := check_none_facts apiKey "" (some regIDs) msg retries hval
  have htn : retries.toNat = (retries.toNat - 1) + 1 := by omega
  have hrun : SendMulticastWithRetries apiKey msg regIDs retries transport
      rand = (MOut.ok (reconcile regIDs [] (baseResult 0 [])),
        [(BackoffInitialDelay,
          BackoffInitialDelay / 2 + rand 0 % BackoffInitialDelay)]) := by
    unfold SendMulticastWithRetries
    rw [hval, htn]
    conv_lhs => unfold multicastLoop
    rw [ht0]
    simp only [roundStep, hc0, if_true]
    rw [if_neg hne]
    conv_lhs => unfold multicastLoop
    rw [ht1]
    simp [roundStep, hc1]
  obtain ⟨hsum, hfail⟩ := reconcile_counts regIDs [] 0 []
  have hall : (regIDs.filter (failedID [])).length = regIDs.length := by
    rw [List.filter_eq_self.mpr]
    intro a _
    exact failedID_nil a
  refine ⟨_, _, hrun, ?_, ?_, ?_⟩
  · rw [hall] at hfail
    omega
  · rw [hall] at hfail
    exact hfail
  · rw [reconcile_results]
    simp

/-- "Last processed store wins": fold a left-to-right sequence of
`(recipient, outcome)` stores over a previous binding. -/
def lastWins (pairs : List (String × result)) (k : String)
    (prev : Option result) : Option result :=
  match pairs with
  | [] => prev
  | p :: ps => lastWins ps k (if p.1 = k then some p.2 else prev)

/-- The per-round recording loop realises last-wins overwriting: after
`recordResults`, the binding of any key is the last outcome stored for it in
this round (pairing the subset with the response positionally), or its
previous binding if the round did not touch it. -/
theorem recordResults_lookup :
    ∀ (rs : List result) (ids : List String) (m m' : RMap)
      (retry : List String),
      recordResults ids rs m = some (m', retry) →
      ∀ k, mapLookup m' k = lastWins (ids.zip rs) k (mapLookup m k) := by
  intro rs
  induction rs with
  | nil =>
    intro ids m m' retry h k
    rcases ids with - | ⟨id, ids⟩ <;>
      · simp only [recordResults, Option.some.injEq, Prod.mk.injEq] at h
        obtain ⟨h1, -⟩ := h
        subst h1
        rfl
  | cons r rs ih =>
    intro ids m m' retry h k
    rcases ids with - | ⟨id, ids⟩
    · simp only [recordResults] at h
      exact Option.noConfusion h
    · simp only [recordResults] at h
      cases hrec : recordResults ids rs (mapInsert m id r) with
      | none =>
        rw [hrec] at h
        simp at h
      | some p =>
        obtain ⟨m'', retry'⟩ := p
        rw [hrec] at h
        simp only [Option.some.injEq, Prod.mk.injEq] at h
        obtain ⟨hm, -⟩ := h
        have hstep := ih ids (mapInsert m id r) m'' retry' hrec k
        rw [hm] at hstep
        rw [hstep]
        simp only [List.zip_cons_cons, lastWins, mapInsert, mapLookup]
        rfl

/-- C9: duplicate recipient identifiers collapse to a single map binding
where the last processed positional outcome wins, and reconciliation assigns
every original position the mapped outcome of its identifier: positions
sharing an identifier receive that identifier's single final outcome, and
the outcome list still has one entry per input position. -/
theorem multicast_duplicate_ids_last_wins (apiKey : String)
    (msg : Option Message) (regIDs : List String) (retries : Int)
    (transport : Nat → Transport) (rand : Nat → Nat) (res : MulticastResult)
    (tr : List (Nat × Nat))
    (h : SendMulticastWithRetries apiKey msg regIDs retries transport rand
        = (MOut.ok res, tr)) :
    res.results.length = regIDs.length ∧
    (∀ i j, ∀ hi : i < regIDs.length, ∀ hj : j < regIDs.length,
      regIDs[i] = regIDs[j] → res.results[i]? = res.results[j]?) ∧
    (∀ ids rs (m m' : RMap) (retry : List String),
      recordResults ids rs m = some (m', retry) →
      ∀ k, mapLookup m' k = lastWins (ids.zip rs) k (mapLookup m k)) := by
  obtain ⟨mm, mid, rids, hres⟩ :=
    sendMulticast_ok_shape apiKey msg regIDs retries transport rand res tr h
  subst hres
  refine ⟨?_, ?_, ?_⟩
  · rw [reconcile_results]
    simp
  · intro i j hi hj hij
    rw [reconcile_get regIDs mm (baseResult mid rids) i hi,
      reconcile_get regIDs mm (baseResult mid rids) j hj, hij]
  · intro ids rs m m' retry hrec k
    exact recordResults_lookup rs ids m m' retry hrec k

/-- Validation passing for some budget passes for budget 0 too (this is the
re-validation `sendRaw` performs). -/
theorem check_none_zero (apiKey : String) (to' : String)
    (regIDs : Option (List String)) (msg : Option Message) (retries : Int)
    (h : checkUnrecoverableErrors apiKey to' regIDs msg retries = none) :
    checkUnrecoverableErrors apiKey to' regIDs msg 0 = none := by
  unfold checkUnrecoverableErrors at h ⊢
  by_cases h1 : apiKey = ""
  · rw [if_pos h1] at h
    exact absurd h (by simp)
  · rw [if_neg h1] at h ⊢
    rcases msg with - | m
    · simp at h
    · simp only at h ⊢
      by_cases h2 : m.timeToLive < 0 ∨ m.timeToLive > 2419200
      · rw [if_pos h2] at h
        exact absurd h (by simp)
      · rw [if_neg h2] at h ⊢
        by_cases h3 : to' = "" ∧ (regIDs = none ∨ (regIDs.getD []).length ≤ 0)
        · rw [if_pos h3] at h
          exact absurd h (by simp)
        · rw [if_neg h3] at h ⊢
          norm_num

/-- If every attempt of the single-send retry loop yields a result carrying
a retryable application error, the loop runs through the whole budget and
ends by returning attempt `retries + 1`'s outcome unchanged. -/
theorem sendLoop_all_retryable (apiKey : String) (msg : Option Message)
    (to' : String) (transport : Nat → Transport) (rand : Nat → Nat)
    (retries : Nat) :
    ∀ (fuel attempt backoff : Nat) (sleeps : List (Nat × Nat)),
      attempt + fuel = retries + 2 →
      attempt ≤ retries + 1 →
      1 ≤ attempt →
      (∀ k, 1 ≤ k → k ≤ retries + 1 →
        (SendNoRetry apiKey msg to' (transport k)).2 = none ∧
        ∃ r, (SendNoRetry apiKey msg to' (transport k)).1 = some r ∧
          retryableAppError r.error = true) →
      (sendWithRetriesLoop apiKey msg to' transport rand retries fuel attempt
          backoff sleeps).1
        = (SendNoRetry apiKey msg to' (transport (retries + 1))).1 ∧
      (sendWithRetriesLoop apiKey msg to' transport rand retries fuel attempt
          backoff sleeps).2.1 = none := by
  intro fuel
  induction fuel with
  | zero =>
    intro attempt backoff sleeps hinv hle hge hall
    omega
  | succ f ih =>
    intro attempt backoff sleeps hinv hle hge hall
    obtain ⟨h2, r, h1, hretry⟩ := hall attempt hge hle
    by_cases hcase : attempt ≤ retries
    · have hstep : sendWithRetriesLoop apiKey msg to' transport rand retries
          (f + 1) attempt backoff sleeps
          = sendWithRetriesLoop apiKey msg to' transport rand retries f
              (attempt + 1) (min (2 * backoff) MaxBackoffDelay)
              (sleeps ++ [(backoff, backoff / 2 + rand attempt % backoff)]) := by
        conv_lhs => unfold sendWithRetriesLoop
        simp only [h1, h2, hretry, if_pos hcase, if_true]
      rw [hstep]
      exact ih (attempt + 1) (min (2 * backoff) MaxBackoffDelay)
        (sleeps ++ [(backoff, backoff / 2 + rand attempt % backoff)])
        (by omega) (by omega) (by omega) hall
    · have hatt : attempt = retries + 1 := by omega
      have hstep : sendWithRetriesLoop apiKey msg to' transport rand retries
          (f + 1) attempt backoff sleeps = (some r, none, sleeps) := by
        conv_lhs => unfold sendWithRetriesLoop
        simp [h1, h2, hretry, hcase]
      rw [hstep]
      refine ⟨?_, rfl⟩
      rw [← hatt]
      exact h1.symm

/-- C6: if `SendWithRetries` exhausts its retry budget while every attempt's
result carries a retryable application error code, it returns the last
obtained result together with a nil error. -/
theorem sendWithRetries_exhausted_retryable_returns_last (apiKey : String)
    (msg : Option Message) (to' : String) (transport : Nat → Transport)
    (rand : Nat → Nat) (retries : Int)
    (hval : checkUnrecoverableErrors apiKey to' none msg retries = none)
    (hall : ∀ k, 1 ≤ k → k ≤ retries.toNat + 1 →
      (SendNoRetry apiKey msg to' (transport k)).2 = none ∧
      ∃ r, (SendNoRetry apiKey msg to' (transport k)).1 = some r ∧
        retryableAppError r.error = true) :
    (SendWithRetries apiKey msg to' transport rand retries).1
        = (SendNoRetry apiKey msg to' (transport (retries.toNat + 1))).1 ∧
    (SendWithRetries apiKey msg to' transport rand retries).2.1 = none ∧
    ∃ r, (SendWithRetries apiKey msg to' transport rand retries).1 = some r ∧
      retryableAppError r.error = true := by
  have hloop := sendLoop_all_retryable apiKey msg to' transport rand
    retries.toNat (retries.toNat + 1) 1 BackoffInitialDelay [] (by omega)
    (by omega) (by omega) hall
  obtain ⟨-, r, h1, hretry⟩ := hall (retries.toNat + 1) (by omega) (by omega)
  have hrun : SendWithRetries apiKey msg to' transport rand retries
      = sendWithRetriesLoop apiKey msg to' transport rand retries.toNat
          (retries.toNat + 1) 1 BackoffInitialDelay [] := by
    unfold SendWithRetries
    rw [hval]
  rw [hrun]
  refine ⟨hloop.1, hloop.2, r, ?_, hretry⟩
  rw [hloop.1]
  exact h1

/-- C7: a device-group response reporting partial failure (`failure > 0`
alongside successes) is a final successful outcome for `SendWithRetries`:
it is returned with nil error after the single first attempt — no sleeps,
no retries — whatever the retry budget. -/
theorem sendWithRetries_deviceGroup_partial_success_final (apiKey : String)
    (msg : Option Message) (to' : String) (transport : Nat → Transport)
    (rand : Nat → Nat) (retries : Int) (resp : response)
    (hval : checkUnrecoverableErrors apiKey to' none msg retries = none)
    (hto : String.startsWith to' TopicPrefix = false)
    (ht : transport 1 = Transport.ok resp)
    (hres : resp.results = none) :
    SendWithRetries apiKey msg to' transport rand retries
      = (some { success := resp.success, failure := resp.failure,
                failedRegistrationIDs := resp.failedRegistrationIDs },
         none, []) := by
  have hval0 := check_none_zero apiKey to' none msg retries hval
  have hsnr : SendNoRetry apiKey msg to' (transport 1)
      = (some { success := resp.success, failure := resp.failure,
                failedRegistrationIDs := resp.failedRegistrationIDs },
         none) := by
    unfold SendNoRetry
    rw [hval0, ht]
    simp [hres, hto]
  have happ : retryableAppError "" = false := by decide
  unfold SendWithRetries
  rw [hval]
  conv_lhs => unfold sendWithRetriesLoop
  simp [hsnr, happ, tryAgainHTTP]

/-- Characterisation of a backoff/sleep trace: each entry records the
backoff current at its round together with a sleep of `backoff/2 + u` for
some draw `u < backoff`, after which the backoff doubles, capped at
`MaxBackoffDelay`. -/
def chainFrom : Nat → List (Nat × Nat) → Prop
  | _, [] => True
  | b, e :: rest =>
    e.1 = b ∧ (∃ u, u < b ∧ e.2 = b / 2 + u) ∧
    chainFrom (min (2 * b) MaxBackoffDelay) rest

/-- Every entry of a backoff chain started within `[1000, MaxBackoffDelay]`
stays within those bounds, and its sleep lies in `[backoff/2, 3*backoff/2)`. -/
theorem chainFrom_bounds :
    ∀ (tr : List (Nat × Nat)) (b : Nat), chainFrom b tr →
      1000 ≤ b → b ≤ MaxBackoffDelay →
      ∀ e ∈ tr, 1000 ≤ e.1 ∧ e.1 ≤ MaxBackoffDelay ∧
        e.1 / 2 ≤ e.2 ∧ 2 * e.2 < 3 * e.1 := by
  intro tr
  induction tr with
  | nil => intro b hc hlo hhi e he; cases he
  | cons p ps ih =>
    intro b hc hlo hhi e he
    obtain ⟨hp1, ⟨u, hu, hp2⟩, hrest⟩ := hc
    rcases List.mem_cons.mp he with rfl | he
    · exact ⟨by omega, by omega, by omega, by omega⟩
    · refine ih (min (2 * b) MaxBackoffDelay) hrest ?_ ?_ e he
      · have : MaxBackoffDelay = 1024000 := rfl
        omega
      · exact min_le_right _ _

/-- The sleep trace of the multicast retry loop extends the accumulated
trace by a chain started at the current backoff. -/
theorem multicastLoop_trace (transport : Nat → Transport)
    (rand : Nat → Nat) (origIDs : List String) :
    ∀ (retries round : Nat) (curIDs : List String) (m : RMap) (mid : Int)
      (rids : List Int) (fr : Bool) (backoff : Nat)
      (sleeps : List (Nat × Nat)),
      1 ≤ backoff →
      ∃ tail,
        (multicastLoop transport rand origIDs round curIDs m mid rids fr
            retries backoff sleeps).2 = sleeps ++ tail ∧
        chainFrom backoff tail := by
  intro retries
  induction retries with
  | zero =>
    intro round curIDs m mid rids fr backoff sleeps hb
    refine ⟨[], ?_, trivial⟩
    unfold multicastLoop
    rcases roundStep (transport round) curIDs m mid rids fr with
      e | - | - | ⟨m', retry, mid', rids'⟩ <;> simp
  | succ r ih =>
    intro round curIDs m mid rids fr backoff sleeps hb
    unfold multicastLoop
    rcases roundStep (transport round) curIDs m mid rids fr with
      e | - | - | ⟨m', retry, mid', rids'⟩
    · exact ⟨[], by simp, trivial⟩
    · exact ⟨[], by simp, trivial⟩
    · exact ⟨[], by simp, trivial⟩
    · by_cases hr : retry = []
      · exact ⟨[], by simp [hr], trivial⟩
      · obtain ⟨tail, htr, hchain⟩ := ih (round + 1) retry m' mid' rids'
          false (min (2 * backoff) MaxBackoffDelay)
          (sleeps ++ [(backoff, backoff / 2 + rand round % backoff)])
          (by have : MaxBackoffDelay = 1024000 := rfl; omega)
        refine ⟨(backoff, backoff / 2 + rand round % backoff) :: tail, ?_, ?_⟩
        · simp only [hr, if_false, ite_false]
          rw [htr, List.append_assoc]
          rfl
        · exact ⟨rfl, ⟨rand round % backoff, Nat.mod_lt _ hb, rfl⟩, hchain⟩

/-- The sleep trace of the single-send retry loop extends the accumulated
trace by a chain started at the current backoff. -/
theorem sendLoop_trace (apiKey : String) (msg : Option Message) (to' : String)
    (transport : Nat → Transport) (rand : Nat → Nat) (retries : Nat) :
    ∀ (fuel attempt backoff : Nat) (sleeps : List (Nat × Nat)),
      1 ≤ backoff →
      ∃ tail,
        (sendWithRetriesLoop apiKey msg to' transport rand retries fuel
            attempt backoff sleeps).2.2 = sleeps ++ tail ∧
        chainFrom backoff tail := by
  intro fuel
  induction fuel with
  | zero =>
    intro attempt backoff sleeps hb
    refine ⟨[], ?_, trivial⟩
    unfold sendWithRetriesLoop
    simp
  | succ f ih =>
    intro attempt backoff sleeps hb
    have hrec : ∃ tail,
        (sendWithRetriesLoop apiKey msg to' transport rand retries f
            (attempt + 1) (min (2 * backoff) MaxBackoffDelay)
            (sleeps ++ [(backoff, backoff / 2 + rand attempt % backoff)])).2.2
          = sleeps
            ++ ((backoff, backoff / 2 + rand attempt % backoff) :: tail) ∧
        chainFrom backoff
          ((backoff, backoff / 2 + rand attempt % backoff) :: tail) := by
      obtain ⟨tail, htr, hchain⟩ := ih (attempt + 1)
        (min (2 * backoff) MaxBackoffDelay)
        (sleeps ++ [(backoff, backoff / 2 + rand attempt % backoff)])
        (by have : MaxBackoffDelay = 1024000 := rfl; omega)
      refine ⟨tail, ?_,
        rfl, ⟨rand attempt % backoff, Nat.mod_lt _ hb, rfl⟩, hchain⟩
      rw [htr, List.append_assoc]
      rfl
    unfold sendWithRetriesLoop
    simp only []
    repeat' split
    all_goals
      first
      | (obtain ⟨tail, h1, h2⟩ := hrec
         exact ⟨(backoff, backoff / 2 + rand attempt % backoff) :: tail,
           h1, h2⟩)
      | (refine ⟨[], ?_, trivial⟩
         simp)

/-- C8: in both retry loops every recorded inter-round sleep was computed as
`backoff/2 + uniformRandom(0, backoff)` — hence lies in
`[backoff/2, 3*backoff/2)` — with the backoff then updated to
`min(2*backoff, 1024000)`; started from 1000, the backoff never exceeds
1,024,000 ms at any point of any execution. -/
theorem backoff_policy_bounds :
    (∀ (apiKey : String) (msg : Option Message) (regIDs : List String)
      (retries : Int) (transport : Nat → Transport) (rand : Nat → Nat),
      chainFrom BackoffInitialDelay
        (SendMulticastWithRetries apiKey msg regIDs retries transport
          rand).2 ∧
      ∀ e ∈ (SendMulticastWithRetries apiKey msg regIDs retries transport
          rand).2,
        BackoffInitialDelay ≤ e.1 ∧ e.1 ≤ MaxBackoffDelay ∧
          e.1 / 2 ≤ e.2 ∧ 2 * e.2 < 3 * e.1) ∧
    (∀ (apiKey : String) (msg : Option Message) (to' : String)
      (transport : Nat → Transport) (rand : Nat → Nat) (retries : Int),
      chainFrom BackoffInitialDelay
        (SendWithRetries apiKey msg to' transport rand retries).2.2 ∧
      ∀ e ∈ (SendWithRetries apiKey msg to' transport rand retries).2.2,
        BackoffInitialDelay ≤ e.1 ∧ e.1 ≤ MaxBackoffDelay ∧
          e.1 / 2 ≤ e.2 ∧ 2 * e.2 < 3 * e.1) := by
  constructor
  · intro apiKey msg regIDs retries transport rand
    have hmain : chainFrom BackoffInitialDelay
        (SendMulticastWithRetries apiKey msg regIDs retries transport
          rand).2 := by
      unfold SendMulticastWithRetries
      rcases checkUnrecoverableErrors apiKey "" (some regIDs) msg retries with
        - | e
      · obtain ⟨tail, htr, hchain⟩ := multicastLoop_trace transport rand
          regIDs retries.toNat 0 regIDs [] 0 [] true BackoffInitialDelay []
          (by norm_num [BackoffInitialDelay])
        simpa [htr] using hchain
      · exact trivial
    exact ⟨hmain, chainFrom_bounds _ BackoffInitialDelay hmain le_rfl
      (by norm_num [BackoffInitialDelay, MaxBackoffDelay])⟩
  · intro apiKey msg to' transport rand retries
    have hmain : chainFrom BackoffInitialDelay
        (SendWithRetries apiKey msg to' transport rand retries).2.2 := by
      unfold SendWithRetries
      rcases checkUnrecoverableErrors apiKey to' none msg retries with - | e
      · obtain ⟨tail, htr, hchain⟩ := sendLoop_trace apiKey msg to' transport
          rand retries.toNat (retries.toNat + 1) 1 BackoffInitialDelay []
          (by norm_num [BackoffInitialDelay])
        simpa [htr] using hchain
      · exact trivial
    exact ⟨hmain, chainFrom_bounds _ BackoffInitialDelay hmain le_rfl
      (by norm_num [BackoffInitialDelay, MaxBackoffDelay])⟩

/-! Concrete transports and values used by the witness theorems. -/

/-- The constant-zero random oracle. -/
def wRand : Nat → Nat := fun _ => 0

/-- A transport answering every round with one delivered recipient. -/
def wTOne : Nat → Transport :=
  fun _ => Transport.ok { success := 1, results := some [{ messageID := "id" }] }

/-- A transport failing every round with status 400. -/
def wT400 : Nat → Transport := fun _ => Transport.http 400

/-- A transport failing every round with status 500. -/
def wT500 : Nat → Transport := fun _ => Transport.http 500

/-- A transport answering every round with one `Unavailable` recipient. -/
def wTFail : Nat → Transport := fun _ =>
  Transport.ok { failure := 1, results := some [{ err := "Unavailable" }] }

/-- A device-group response with partial success. -/
def wGroupResp : response :=
  { success := 1, failure := 2, failedRegistrationIDs := ["x", "y"] }

/-- A transport answering every round with `wGroupResp`. -/
def wTGroup : Nat → Transport := fun _ => Transport.ok wGroupResp

/-- A transport answering with two delivered outcomes (for duplicates). -/
def wTDup : Nat → Transport := fun _ =>
  Transport.ok
    { success := 2,
      results := some [{ messageID := "a" }, { messageID := "b" }] }

/-- A transport giving a 503 on round 0 and a 400 afterwards. -/
def wTMix : Nat → Transport :=
  fun n => if n = 0 then Transport.http 503 else Transport.http 400

/-- Witness: the C1 invariants at a concrete single-recipient run. -/
theorem multicast_result_invariants_witness :
    SendMulticastWithRetries "key" (some {}) ["1"] 0 wTOne wRand
      = (MOut.ok { success := 1, results := [{ messageID := "id" }] }, []) ∧
    ({ success := 1, results := [{ messageID := "id" }] }
        : MulticastResult).results.length = (["1"] : List String).length :=
  ⟨by decide,
   (multicast_result_invariants "key" (some {}) ["1"] 0 wTOne wRand
     { success := 1, results := [{ messageID := "id" }] } []
     (by decide)).1⟩

/-- Witness: the C2 first-round abort at a concrete 400 run. -/
theorem multicast_first_round_terminal_aborts_witness :
    checkUnrecoverableErrors "key" "" (some ["1"]) (some {}) 0 = none ∧
    wT400 0 = Transport.http 400 ∧
    retryableStatus 400 = false ∧
    SendMulticastWithRetries "key" (some {}) ["1"] 0 wT400 wRand
      = (MOut.err (Gerr.http 400), []) :=
  ⟨by decide, rfl, by decide,
   multicast_first_round_terminal_aborts "key" (some {}) ["1"] 0 wT400 wRand
     400 (by decide) rfl (by decide)⟩

/-- Witness: the C3 swallowed later-round terminal failure at concrete
state. -/
theorem multicast_later_terminal_swallowed_witness :
    (wT400 0 = Transport.net ∨
      ∃ c, wT400 0 = Transport.http c ∧ retryableStatus c = false) ∧
    multicastLoop wT400 wRand ["1"] 0 ["1"] [] 0 [] false 3 1000 []
      = (MOut.ok (reconcile ["1"] [] (baseResult 0 [])), []) :=
  ⟨Or.inr ⟨400, rfl, by decide⟩,
   (multicast_later_terminal_swallowed wT400 wRand ["1"] 0 ["1"] [] 0 [] 3
     1000 [] (Or.inr ⟨400, rfl, by decide⟩)).1⟩

/-- Witness: the C5 5xx whole-subset retry step at concrete state. -/
theorem multicast_5xx_round_retries_whole_subset_witness :
    wT500 0 = Transport.http 500 ∧
    retryableStatus 500 = true ∧
    (["1"] : List String) ≠ [] ∧
    multicastLoop wT500 wRand ["1"] 0 ["1"] [] 0 [] true (0 + 1) 1000 []
      = multicastLoop wT500 wRand ["1"] (0 + 1) ["1"] [] 0 [] false 0
          (min (2 * 1000) MaxBackoffDelay)
          ([] ++ [(1000, 1000 / 2 + wRand 0 % 1000)]) :=
  ⟨rfl, by decide, by decide,
   multicast_5xx_round_retries_whole_subset wT500 wRand ["1"] 0 ["1"] [] 0 []
     true 0 1000 [] 500 rfl (by decide) (by decide)⟩

/-- Witness: the C6 budget-exhaustion result at a concrete run. -/
theorem sendWithRetries_exhausted_retryable_returns_last_witness :
    checkUnrecoverableErrors "key" "regId" none (some {}) 1 = none ∧
    (SendWithRetries "key" (some {}) "regId" wTFail wRand 1).2.1 = none :=
  ⟨by decide,
   (sendWithRetries_exhausted_retryable_returns_last "key" (some {}) "regId"
     wTFail wRand 1 (by decide)
     (fun k h1 h2 =>
       ⟨by rfl, ⟨{ error := "Unavailable" }, by rfl, by decide⟩⟩)).2.1⟩

/-- Witness: the C7 device-group partial success at a concrete run. -/
theorem sendWithRetries_deviceGroup_partial_success_final_witness :
    checkUnrecoverableErrors "key" "group" none (some {}) 5 = none ∧
    String.startsWith "group" TopicPrefix = false ∧
    SendWithRetries "key" (some {}) "group" wTGroup wRand 5
      = (some { success := 1, failure := 2,
                failedRegistrationIDs := ["x", "y"] }, none, []) :=
  ⟨by decide, by decide,
   sendWithRetries_deviceGroup_partial_success_final "key" (some {}) "group"
     wTGroup wRand 5 wGroupResp (by decide) (by decide) rfl rfl⟩

/-- Witness: the C8 bounds at a concrete recorded sleep. -/
theorem backoff_policy_bounds_witness :
    (1000, 500) ∈
      (SendMulticastWithRetries "key" (some {}) ["1"] 1 wTFail wRand).2 ∧
    (BackoffInitialDelay ≤ 1000 ∧ 1000 ≤ MaxBackoffDelay ∧
      1000 / 2 ≤ 500 ∧ 2 * 500 < 3 * 1000) :=
  ⟨by decide,
   (backoff_policy_bounds.1 "key" (some {}) ["1"] 1 wTFail wRand).2
     (1000, 500) (by decide)⟩

/-- Witness: the C9 duplicate handling at a concrete duplicated run. -/
theorem multicast_duplicate_ids_last_wins_witness :
    SendMulticastWithRetries "key" (some {}) ["1", "1"] 0 wTDup wRand
      = (MOut.ok
          { success := 2,
            results := [{ messageID := "b" }, { messageID := "b" }] }, []) ∧
    ({ success := 2, results := [{ messageID := "b" }, { messageID := "b" }] }
        : MulticastResult).results.length
      = (["1", "1"] : List String).length :=
  ⟨by decide,
   (multicast_duplicate_ids_last_wins "key" (some {}) ["1", "1"] 0 wTDup
     wRand
     { success := 2,
       results := [{ messageID := "b" }, { messageID := "b" }] } []
     (by decide)).1⟩

/-- Witness: the C10 swallowed error with an all-failed result at a concrete
run. -/
theorem multicast_5xx_then_terminal_all_failed_witness :
    (1 : Int) ≤ 1 ∧
    ∃ res : MulticastResult, ∃ tr : List (Nat × Nat),
      SendMulticastWithRetries "key" (some {}) ["1"] 1 wTMix wRand
          = (MOut.ok res, tr) ∧
      res.success = 0 ∧ res.failure = ((["1"] : List String).length : Int) ∧
      res.results.length = (["1"] : List String).length :=
  ⟨by norm_num,
   multicast_5xx_then_terminal_all_failed "key" (some {}) ["1"] 1 wTMix wRand
     503 400 (by decide) (by norm_num) rfl (by decide) rfl (by decide)⟩

end GCM
